import Mathlib

/-!
Verification of the chunked N-dimensional array access engine of the diced
repository (src/diced/DicedArray.py) against its natural-language
specification.  The Python code is shallowly embedded: buffers become
functions from index lists to element values, the remote block store (DVID,
reached through libdvid get_array*/put_array* calls) becomes a memory
function together with a log of the requests issued to it, and Python
exceptions become explicit error results.  Machine integers are modelled as
Int/Nat (Python ints are unbounded; numpy element values are reduced modulo
the dtype width exactly where numpy casts).
-/

set_option maxHeartbeats 1000000

namespace Diced

/-- DicedArray.MAX_REQ_SIZE = 512*512*512. -/
def MAX_REQ_SIZE : Nat := 512 * 512 * 512

/-- The ArrayDtype enum of DicedArray.py (supported element datatypes). -/
inductive ArrayDtype
  | uint8
  | uint16
  | uint32
  | uint64
  deriving DecidableEq, Repr

/-- Bit width of each dtype. -/
def ArrayDtype.bits : ArrayDtype → Nat
  | .uint8 => 8
  | .uint16 => 16
  | .uint32 => 32
  | .uint64 => 64

/-- numpy value conversion into a target dtype: unsigned casts keep the value
modulo 2^bits (widening preserves it, narrowing truncates).  This is what a
numpy slice assignment does to the assigned values. -/
def castVal (dt : ArrayDtype) (v : Nat) : Nat := v % 2 ^ dt.bits

/-- A numpy ndarray: its shape and its contents as a function from a
multi-index (one entry per dimension) to the element value. -/
structure PyBuf where
  dims : List Nat
  val : List Nat → Nat
  dtype : ArrayDtype

/-- The (zsize, ysize, xsize) extraction of _setchunk: sizes default to 1 and
the trailing axes of data.shape fill x, then y, then z.  This coincides with
numpy broadcasting, which left-pads a shape with 1s up to 3 axes. -/
def PyBuf.shape3 (b : PyBuf) : Nat × Nat × Nat :=
  match b.dims with
  | [z, y, x] => (z, y, x)
  | [y, x] => (1, y, x)
  | [x] => (1, 1, x)
  | _ => (1, 1, 1)

/-- Reading b at a 3D index under numpy left-padded broadcasting: a 2D buffer
is viewed as (1, ys, xs), a 1D buffer as (1, 1, xs). -/
def PyBuf.view3 (b : PyBuf) (z y x : Nat) : Nat :=
  match b.dims with
  | [_, _, _] => b.val [z, y, x]
  | [_, _] => b.val [y, x]
  | [_] => b.val [x]
  | _ => b.val []

/-- Kind of a request issued to the remote store. -/
inductive ReqKind
  | get
  | put
  deriving DecidableEq, Repr

/-- One get/put request issued to the remote store: origin and shape of the
transferred region, in (z, y, x) order. -/
structure Req where
  kind : ReqKind
  origin : Int × Int × Int
  shape : Nat × Nat × Nat
  deriving DecidableEq, Repr

/-- Element count of a request. -/
def Req.vol (r : Req) : Nat := r.shape.1 * r.shape.2.1 * r.shape.2.2

/-- The remote block store's logical contents: one element value per integer
coordinate; unwritten coordinates read as zero-fill (DVID get semantics). -/
structure Store where
  mem : Int → Int → Int → Nat

/-- Engine-visible state: the store contents plus the ordered log of every
get/put request issued to the store so far. -/
structure St where
  store : Store
  log : List Req

/-- The DicedArray handle fields used by the access engine.  blocksize is
unpacked in _setchunk as (xblk, yblk, zblk) = self.blocksize. -/
structure DicedArray where
  locked : Bool
  numdims : Nat
  dtype : ArrayDtype
  xblk : Nat
  yblk : Nat
  zblk : Nat

/-- Errors: DicedException reasons raised by DicedArray.py plus the Python /
numpy / store-binding exceptions the embedded code can raise. -/
inductive Err
  | dimMismatch
  | readOnly
  | pyIndexError
  | pyTypeError
  | pyValueError
  | storeTypeError
  deriving DecidableEq, Repr

/-- The content of the buffer returned by DicedArray._getchunk: the store
returns the requested region, zero-filling outside written data, so element
(a, b, c) is the store memory at origin + (a, b, c). -/
def getchunkBuf (ar : DicedArray) (st : St) (z y x : Int)
    (zsize ysize xsize : Nat) : PyBuf :=
  { dims := [zsize, ysize, xsize]
    val := fun l => match l with
      | [a, b, c] => st.store.mem (z + a) (y + b) (x + c)
      | _ => 0
    dtype := ar.dtype }

/-- DicedArray._getchunk: issues one get request (the four dtype-specific
get_arrayNNbit3D store calls behave identically at this level of modelling)
and returns the region buffer. -/
def getchunk (ar : DicedArray) (st : St) (z y x : Int)
    (zsize ysize xsize : Nat) : PyBuf × St :=
  (getchunkBuf ar st z y x zsize ysize xsize,
   { st with log := st.log ++ [⟨.get, (z, y, x), (zsize, ysize, xsize)⟩] })

/-- Result of a store-mutating engine step: success with the new state, or a
raised exception together with the state at raise time (already-issued
requests and already-committed puts persist). -/
inductive SRes
  | serr (e : Err) (st : St)
  | sok (st : St)

/-- The put_arrayNNbit3D store calls: the binding is typed per element width
(spec section 6, typed buffer interface), so a buffer whose dtype differs from
the array's is rejected; otherwise the data region is stored at the origin.
The request is logged in either case. -/
def putchunk (ar : DicedArray) (st : St) (data : PyBuf) (z y x : Int) : SRes :=
  let s := data.shape3
  let st1 : St := { st with log := st.log ++ [⟨.put, (z, y, x), s⟩] }
  if data.dtype ≠ ar.dtype then .serr .storeTypeError st1
  else .sok
    { store := { mem := fun a b c =>
        if z ≤ a ∧ a < z + s.1 ∧ y ≤ b ∧ b < y + s.2.1 ∧
           x ≤ c ∧ c < x + s.2.2 then
          data.view3 (a - z).toNat (b - y).toNat (c - x).toNat
        else st.store.mem a b c }
      log := st1.log }

/-- znew = z - (z % zblk) in _setchunk.  Python % with a positive modulus
agrees with Int's % (Euclidean mod, result in [0, b)). -/
def alignedOrigin (o : Int) (b : Nat) : Int := o - o % (b : Int)

/-- zsize += (z % zblk); if zsize % zblk > 0: zsize += zblk - zsize % zblk,
from _setchunk. -/
def alignedSize (o : Int) (b : Nat) (s : Nat) : Nat :=
  if (s + (o % (b : Int)).toNat) % b > 0 then
    (s + (o % (b : Int)).toNat) + (b - (s + (o % (b : Int)).toNat) % b)
  else s + (o % (b : Int)).toNat

/-- The blockaligned flag computed by _setchunk: true when the origin is
already on the block grid and the (origin-shifted) sizes are multiples of the
block size. -/
def blockAlignedFlag (ar : DicedArray) (z y x : Int) (zs ys xs : Nat) : Bool :=
  (alignedOrigin z ar.zblk == z) && (alignedOrigin y ar.yblk == y) &&
  (alignedOrigin x ar.xblk == x) &&
  ((zs + (z % (ar.zblk : Int)).toNat) % ar.zblk == 0) &&
  ((ys + (y % (ar.yblk : Int)).toNat) % ar.yblk == 0) &&
  ((xs + (x % (ar.xblk : Int)).toNat) % ar.xblk == 0)

/-- The merged buffer newdata built by _setchunk for a non-block-aligned
write: the fetched aligned region, overwritten at offset
(origin - alignedOrigin) with the caller's data by a numpy slice assignment
(which casts the assigned values into the fetched buffer's dtype, the
array's own). -/
def mergedData (ar : DicedArray) (st : St) (z y x : Int) (data : PyBuf) : PyBuf :=
  { dims := [alignedSize z ar.zblk data.shape3.1,
             alignedSize y ar.yblk data.shape3.2.1,
             alignedSize x ar.xblk data.shape3.2.2]
    val := fun l => match l with
      | [a, b, c] =>
        if (z - alignedOrigin z ar.zblk).toNat ≤ a ∧
           a < (z - alignedOrigin z ar.zblk).toNat + data.shape3.1 ∧
           (y - alignedOrigin y ar.yblk).toNat ≤ b ∧
           b < (y - alignedOrigin y ar.yblk).toNat + data.shape3.2.1 ∧
           (x - alignedOrigin x ar.xblk).toNat ≤ c ∧
           c < (x - alignedOrigin x ar.xblk).toNat + data.shape3.2.2 then
          castVal ar.dtype
            (data.view3 (a - (z - alignedOrigin z ar.zblk).toNat)
              (b - (y - alignedOrigin y ar.yblk).toNat)
              (c - (x - alignedOrigin x ar.xblk).toNat))
        else
          (getchunkBuf ar st (alignedOrigin z ar.zblk) (alignedOrigin y ar.yblk)
            (alignedOrigin x ar.xblk) (alignedSize z ar.zblk data.shape3.1)
            (alignedSize y ar.yblk data.shape3.2.1)
            (alignedSize x ar.xblk data.shape3.2.2)).val [a, b, c]
      | _ => 0
    dtype := ar.dtype }

/-- DicedArray._setchunk: block-align the written region; when unaligned,
fetch the aligned superset, overlay the caller's data at offset
(origin - alignedOrigin), and put the merged region back; when aligned, put
the data directly.  The put always targets the aligned origin (equal to the
requested origin in the aligned case). -/
def setchunk (ar : DicedArray) (st : St) (z y x : Int) (data : PyBuf) : SRes :=
  if blockAlignedFlag ar z y x data.shape3.1 data.shape3.2.1 data.shape3.2.2 then
    putchunk ar st data (alignedOrigin z ar.zblk) (alignedOrigin y ar.yblk)
      (alignedOrigin x ar.xblk)
  else
    putchunk ar
      (getchunk ar st (alignedOrigin z ar.zblk) (alignedOrigin y ar.yblk)
        (alignedOrigin x ar.xblk) (alignedSize z ar.zblk data.shape3.1)
        (alignedSize y ar.yblk data.shape3.2.1)
        (alignedSize x ar.xblk data.shape3.2.2)).2
      (mergedData ar st z y x data)
      (alignedOrigin z ar.zblk) (alignedOrigin y ar.yblk) (alignedOrigin x ar.xblk)

/-- One entry of a tuple index: a Python int or a slice(start, stop). -/
inductive IS
  | int (i : Int)
  | slc (start stop : Int)
  deriving DecidableEq

/-- A user index expression as dispatched on by __getitem__ / __setitem__:
a single int, a single slice, or a 2- or 3-tuple of ints and slices. -/
inductive Idx
  | int (i : Int)
  | slc (start stop : Int)
  | tup2 (a b : IS)
  | tup3 (a b c : IS)
  deriving DecidableEq

/-- Int entry k becomes slice(k, k+1); slices pass through. -/
def IS.toSlice : IS → Int × Int
  | .int i => (i, i + 1)
  | .slc a b => (a, b)

def IS.isInt : IS → Bool
  | .int _ => true
  | .slc _ _ => false

/-- dimsreq as computed by __getitem__ / __setitem__: 1 for a bare int or
slice, else the tuple length. -/
def Idx.dimsreq : Idx → Nat
  | .int _ => 1
  | .slc _ _ => 1
  | .tup2 _ _ => 2
  | .tup3 _ _ _ => 3

/-- The normalized (z, y, x) slices: z = y = x = slice(0, 1) by default, then
the supplied entries fill (z, y, x) for a 3-tuple, (y, x) for a 2-tuple and x
for a single int or slice. -/
def Idx.slices : Idx → (Int × Int) × (Int × Int) × (Int × Int)
  | .int i => ((0, 1), (0, 1), (i, i + 1))
  | .slc a b => ((0, 1), (0, 1), (a, b))
  | .tup2 a b => ((0, 1), a.toSlice, b.toSlice)
  | .tup3 a b c => (a.toSlice, b.toSlice, c.toSlice)

/-- The (singleindex1, singleindex2, singleindex3) flags set by __getitem__:
an int entry flags its axis; for a 2-tuple the entries flag axes 2 and 3, for
a bare int axis 3. -/
def Idx.flags : Idx → Bool × Bool × Bool
  | .int _ => (false, false, true)
  | .slc _ _ => (false, false, false)
  | .tup2 a b => (false, a.isInt, b.isInt)
  | .tup3 a b c => (a.isInt, b.isInt, c.isInt)

/-- One iteration of the increment-halving loop body shared by __getitem__ and
__setitem__: halve (ceiling division, n//2 + n%2) zincr when it is strictly
greater than both others, else yincr when strictly greater than both others,
else xincr. -/
def incrStep : Nat × Nat × Nat → Nat × Nat × Nat
  | (zincr, yincr, xincr) =>
    if zincr > yincr ∧ zincr > xincr then (zincr / 2 + zincr % 2, yincr, xincr)
    else if yincr > zincr ∧ yincr > xincr then (zincr, yincr / 2 + yincr % 2, xincr)
    else (zincr, yincr, xincr / 2 + xincr % 2)

/-- Which branch of the halving loop body fires: 0 halves zincr, 1 halves
yincr, 2 halves xincr (the if / elif / else selector of the source loop). -/
def halvedAxis (zincr yincr xincr : Nat) : Nat :=
  if zincr > yincr ∧ zincr > xincr then 0
  else if yincr > zincr ∧ yincr > xincr then 1
  else 2

/-- The while loop computing the tiling increments.  It is fuel-indexed
because the source loop does not terminate on every input (when zincr = yincr
exceed xincr the else branch halves xincr, which is a no-op once xincr = 1):
none means the loop is still running after the given number of iterations. -/
def computeIncrs : Nat → Nat × Nat × Nat → Option (Nat × Nat × Nat)
  | 0, t => if t.1 * t.2.1 * t.2.2 > MAX_REQ_SIZE then none else some t
  | fuel + 1, t =>
    if t.1 * t.2.1 * t.2.2 > MAX_REQ_SIZE then computeIncrs fuel (incrStep t)
    else some t

/-- Python range(0, stop, step) for a positive step. -/
def rangeStep (stop step : Nat) : List Nat :=
  (List.range ((stop + step - 1) / step)).map (fun k => k * step)

/-- The tile origin triples visited by the nested ziter/yiter/xiter loops, in
iteration (row-major) order.  Sizes are the Nat values of stop - start, which
agrees with the source for the well-formed regions (stop at least start) the
loops are reached with. -/
def tiles3 (zsize ysize xsize zincr yincr xincr : Nat) : List (Nat × Nat × Nat) :=
  (rangeStep zsize zincr).flatMap fun zi =>
    (rangeStep ysize yincr).flatMap fun yi =>
      (rangeStep xsize xincr).map fun xi => (zi, yi, xi)

/-- The body of the chunked __getitem__ loop for one tile: get the chunk at
the tile origin with the clamped size min(z.stop - zstart, zincr)
(= min(zsize - ziter, zincr) since zstart = ziter + z.start) and copy it into
the output buffer at the tile offset. -/
def readStep (ar : DicedArray) (zst yst xst : Int)
    (zsize ysize xsize zincr yincr xincr : Nat)
    (acc : (Nat → Nat → Nat → Nat) × St) (t : Nat × Nat × Nat) :
    (Nat → Nat → Nat → Nat) × St :=
  let czi := min (zsize - t.1) zincr
  let cyi := min (ysize - t.2.1) yincr
  let cxi := min (xsize - t.2.2) xincr
  let g := getchunk ar acc.2 (zst + t.1) (yst + t.2.1) (xst + t.2.2) czi cyi cxi
  (fun a b c =>
    if t.1 ≤ a ∧ a < t.1 + czi ∧ t.2.1 ≤ b ∧ b < t.2.1 + cyi ∧
       t.2.2 ≤ c ∧ c < t.2.2 + cxi then
      g.1.val [a - t.1, b - t.2.1, c - t.2.2]
    else acc.1 a b c,
   g.2)

/-- The chunked branch of __getitem__: walk the tiles in iteration order,
copying each fetched chunk into the pre-allocated (np.zeros) output buffer.
Returns the assembled buffer content and the state after the per-tile get
requests. -/
def readTiles (ar : DicedArray) (st : St) (zst yst xst : Int)
    (zsize ysize xsize zincr yincr xincr : Nat) : (Nat → Nat → Nat → Nat) × St :=
  (tiles3 zsize ysize xsize zincr yincr xincr).foldl
    (readStep ar zst yst xst zsize ysize xsize zincr yincr xincr)
    ((fun _ _ _ => 0), st)

/-- numpy a.squeeze(i): drop axis i from the shape; fails (ValueError) when
that axis does not have size 1. -/
def PyBuf.squeezeAt (b : PyBuf) (i : Nat) : Option PyBuf :=
  if b.dims.get? i = some 1 then
    some { dims := b.dims.eraseIdx i
           val := fun l => b.val (l.take i ++ 0 :: l.drop i)
           dtype := b.dtype }
  else none

/-- Result of a read: a bare Python int (when every axis was collapsed) or an
ndarray. -/
inductive ReadResult
  | scalar (v : Nat)
  | arr (b : PyBuf)

/-- Result of __getitem__: the value and resulting state, an exception with
the state at raise time, or divergence of the halving loop. -/
inductive RRes
  | rdiverged
  | rerr (e : Err) (st : St)
  | rok (r : ReadResult) (st : St)

/-- The squeeze phase at the end of __getitem__, keyed on numdims and the
singleindex flags.  numpy squeeze of an axis pair is performed as two single
squeezes with the second index adjusted for the removed axis.  In the
numdims = 1, singleindex3 branch the source (line 262) runs
int(data.squeeze) - int applied to the bound method object itself, the call
parentheses are missing - which raises TypeError. -/
def squeezePhase (numdims : Nat) (s1 s2 s3 : Bool) (data : PyBuf) :
    Except Err ReadResult :=
  if numdims = 3 then
    if s1 && s2 && s3 then
      if data.dims = [1, 1, 1] then .ok (.scalar (data.val [0, 0, 0]))
      else .error .pyTypeError
    else if s1 && s2 then
      match (data.squeezeAt 0).bind (fun d => d.squeezeAt 0) with
      | some d => .ok (.arr d)
      | none => .error .pyValueError
    else if s2 && s3 then
      match (data.squeezeAt 1).bind (fun d => d.squeezeAt 1) with
      | some d => .ok (.arr d)
      | none => .error .pyValueError
    else if s1 && s3 then
      match (data.squeezeAt 0).bind (fun d => d.squeezeAt 1) with
      | some d => .ok (.arr d)
      | none => .error .pyValueError
    else if s1 then
      match data.squeezeAt 0 with
      | some d => .ok (.arr d)
      | none => .error .pyValueError
    else if s2 then
      match data.squeezeAt 1 with
      | some d => .ok (.arr d)
      | none => .error .pyValueError
    else if s3 then
      match data.squeezeAt 2 with
      | some d => .ok (.arr d)
      | none => .error .pyValueError
    else .ok (.arr data)
  else if numdims = 2 then
    match data.squeezeAt 0 with
    | none => .error .pyValueError
    | some d2 =>
      if s2 && s3 then
        if d2.dims = [1, 1] then .ok (.scalar (d2.val [0, 0]))
        else .error .pyTypeError
      else if s2 then
        match d2.squeezeAt 0 with
        | some d => .ok (.arr d)
        | none => .error .pyValueError
      else if s3 then
        match d2.squeezeAt 1 with
        | some d => .ok (.arr d)
        | none => .error .pyValueError
      else .ok (.arr d2)
  else if numdims = 1 then
    match (data.squeezeAt 0).bind (fun d => d.squeezeAt 0) with
    | none => .error .pyValueError
    | some d1 =>
      if s3 then .error .pyTypeError
      else .ok (.arr d1)
  else .ok (.arr data)

/-- DicedArray.__getitem__: normalize the index, check the arity, issue a
single get when the requested volume is within MAX_REQ_SIZE and otherwise
assemble the region from tiles, then apply the squeeze phase. -/
def getitem (ar : DicedArray) (st : St) (idx : Idx) (fuel : Nat) : RRes :=
  if ar.numdims ≠ idx.dimsreq then .rerr .dimMismatch st
  else
    let sl := idx.slices
    let f := idx.flags
    let zsize : Int := sl.1.2 - sl.1.1
    let ysize : Int := sl.2.1.2 - sl.2.1.1
    let xsize : Int := sl.2.2.2 - sl.2.2.1
    if zsize * ysize * xsize > (MAX_REQ_SIZE : Int) then
      match computeIncrs fuel (zsize.toNat, ysize.toNat, xsize.toNat) with
      | none => .rdiverged
      | some incrs =>
        let r := readTiles ar st sl.1.1 sl.2.1.1 sl.2.2.1
          zsize.toNat ysize.toNat xsize.toNat incrs.1 incrs.2.1 incrs.2.2
        let dataBuf : PyBuf :=
          { dims := [zsize.toNat, ysize.toNat, xsize.toNat]
            val := fun l => match l with
              | [a, b, c] => r.1 a b c
              | _ => 0
            dtype := ar.dtype }
        match squeezePhase ar.numdims f.1 f.2.1 f.2.2 dataBuf with
        | .error e => .rerr e r.2
        | .ok res => .rok res r.2
    else
      let g := getchunk ar st sl.1.1 sl.2.1.1 sl.2.2.1
        zsize.toNat ysize.toNat xsize.toNat
      match squeezePhase ar.numdims f.1 f.2.1 f.2.2 g.1 with
      | .error e => .rerr e g.2
      | .ok res => .rok res g.2

/-- numpy val[z0:z0+czs, y0:y0+cys, x0:x0+cxs] (three subscripts, as the
chunked __setitem__ path applies to the caller's value buffer): raises
IndexError when val has fewer than 3 dimensions. -/
def slice3 (b : PyBuf) (z0 y0 x0 czs cys cxs : Nat) : Except Err PyBuf :=
  if b.dims.length < 3 then .error .pyIndexError
  else .ok
    { dims := [czs, cys, cxs]
      val := fun l => match l with
        | [a, b', c] => b.val [z0 + a, y0 + b', x0 + c]
        | _ => 0
      dtype := b.dtype }

/-- The body of the chunked __setitem__ loop for one tile: slice the caller's
value buffer with three subscripts (clamped tile sizes) and _setchunk the
piece at the tile origin.  A previously raised exception propagates
unchanged; earlier tiles stay committed. -/
def writeStep (ar : DicedArray) (val : PyBuf) (zst yst xst : Int)
    (zsize ysize xsize zincr yincr xincr : Nat) (acc : SRes)
    (t : Nat × Nat × Nat) : SRes :=
  match acc with
  | .serr e s => .serr e s
  | .sok s =>
    match slice3 val t.1 t.2.1 t.2.2 (min (zsize - t.1) zincr)
        (min (ysize - t.2.1) yincr) (min (xsize - t.2.2) xincr) with
    | .error e => .serr e s
    | .ok sub => setchunk ar s (zst + t.1) (yst + t.2.1) (xst + t.2.2) sub

/-- The chunked branch of __setitem__: walk the tiles in iteration order,
slicing the caller's value buffer and writing each piece. -/
def writeTiles (ar : DicedArray) (st : St) (val : PyBuf) (zst yst xst : Int)
    (zsize ysize xsize zincr yincr xincr : Nat) : SRes :=
  (tiles3 zsize ysize xsize zincr yincr xincr).foldl
    (writeStep ar val zst yst xst zsize ysize xsize zincr yincr xincr)
    (.sok st)

/-- Result of __setitem__. -/
inductive WRes
  | wdiverged
  | werr (e : Err) (st : St)
  | wok (st : St)

def WRes.isOk : WRes → Bool
  | .wok _ => true
  | _ => false

/-- The request log after a write (empty for a diverging call, which never
returns). -/
def WRes.logOf : WRes → List Req
  | .wok st => st.log
  | .werr _ st => st.log
  | .wdiverged => []

/-- The store contents after a write, observed at one coordinate. -/
def WRes.memAt : WRes → Int → Int → Int → Nat
  | .wok st, a, b, c => st.store.mem a b c
  | .werr _ st, a, b, c => st.store.mem a b c
  | .wdiverged, _, _, _ => 0

/-- DicedArray.__setitem__: normalize the index, check the arity, refuse a
locked node, then either _setchunk the whole value (volume within
MAX_REQ_SIZE) or run the chunked path. -/
def setitem (ar : DicedArray) (st : St) (idx : Idx) (val : PyBuf) (fuel : Nat) :
    WRes :=
  if ar.numdims ≠ idx.dimsreq then .werr .dimMismatch st
  else if ar.locked then .werr .readOnly st
  else
    let sl := idx.slices
    let zsize : Int := sl.1.2 - sl.1.1
    let ysize : Int := sl.2.1.2 - sl.2.1.1
    let xsize : Int := sl.2.2.2 - sl.2.2.1
    if zsize * ysize * xsize > (MAX_REQ_SIZE : Int) then
      match computeIncrs fuel (zsize.toNat, ysize.toNat, xsize.toNat) with
      | none => .wdiverged
      | some incrs =>
        match writeTiles ar st val sl.1.1 sl.2.1.1 sl.2.2.1
            zsize.toNat ysize.toNat xsize.toNat incrs.1 incrs.2.1 incrs.2.2 with
        | .serr e s => .werr e s
        | .sok s => .wok s
    else
      match setchunk ar st sl.1.1 sl.2.1.1 sl.2.2.1 val with
      | .serr e s => .werr e s
      | .sok s => .wok s

/-- The request log after a read (empty for a diverging call). -/
def RRes.logOf : RRes → List Req
  | .rok _ st => st.log
  | .rerr _ st => st.log
  | .rdiverged => []

/-- The request log after a _setchunk call. -/
def SRes.logOf : SRes → List Req
  | .sok st => st.log
  | .serr _ st => st.log

/-- The property claim C3 asserts of the halving loop body: the axis it
halves holds the maximum of the three increments. -/
def halvedIsMax (z y x : Nat) : Prop :=
  (halvedAxis z y x = 0 → z = max z (max y x)) ∧
  (halvedAxis z y x = 1 → y = max z (max y x)) ∧
  (halvedAxis z y x = 2 → x = max z (max y x))

instance (z y x : Nat) : Decidable (halvedIsMax z y x) := by
  unfold halvedIsMax
  exact inferInstance

/-- The all-zero store with an empty request log. -/
def st0 : St := ⟨⟨fun _ _ _ => 0⟩, []⟩

/-- A 1D uint8 array handle; DicedRepo creates 1D arrays with BlockSize
(262144, 1, 1), unpacked in _setchunk as (xblk, yblk, zblk). -/
def ar1d : DicedArray := ⟨false, 1, .uint8, 262144, 1, 1⟩

/-- A 2D uint8 array handle (BlockSize (512, 512, 1)). -/
def ar2d : DicedArray := ⟨false, 2, .uint8, 512, 512, 1⟩

/-- A 3D uint8 array handle (BlockSize (64, 64, 64)). -/
def ar3d : DicedArray := ⟨false, 3, .uint8, 64, 64, 64⟩

/-- A 3D handle on a locked version node. -/
def ar3dLocked : DicedArray := ⟨true, 3, .uint8, 64, 64, 64⟩

/-- A 3D uint64 handle with 2x2x2 blocks, for small concrete examples. -/
def arU64 : DicedArray := ⟨false, 3, .uint64, 2, 2, 2⟩

/-- An oversized (MAX_REQ_SIZE + 1 elements) 1D value buffer. -/
def val1d : PyBuf := ⟨[134217729], fun _ => 5, .uint8⟩

/-- An oversized 16384 x 16384 2D value buffer. -/
def val2d : PyBuf := ⟨[16384, 16384], fun _ => 5, .uint8⟩

/-- A 512^3 value buffer (exactly MAX_REQ_SIZE elements). -/
def val512 : PyBuf := ⟨[512, 512, 512], fun _ => 0, .uint8⟩

/-- A single-element uint16 buffer holding 7. -/
def bufU16 : PyBuf := ⟨[1, 1, 1], fun _ => 7, .uint16⟩

/-- A single-element uint8 buffer. -/
def bufU8 : PyBuf := ⟨[1, 1, 1], fun _ => 0, .uint8⟩

/-- A single-element uint64 buffer holding 9. -/
def bufU64 : PyBuf := ⟨[1, 1, 1], fun _ => 9, .uint64⟩

/-- The index [1:513, 1:513, 1:513]: exactly MAX_REQ_SIZE elements at an
origin off the 64-block grid. -/
def idx512 : Idx := .tup3 (.slc 1 513) (.slc 1 513) (.slc 1 513)

lemma mod_cast_nonneg (o : Int) (b : Nat) (hb : 0 < b) : 0 ≤ o % (b : Int) :=
  Int.emod_nonneg o (by exact_mod_cast hb.ne')

lemma mod_cast_lt (o : Int) (b : Nat) (hb : 0 < b) : o % (b : Int) < b :=
  Int.emod_lt_of_pos o (by exact_mod_cast hb)

lemma alignedOrigin_le (o : Int) (b : Nat) (hb : 0 < b) : alignedOrigin o b ≤ o := by
  have := mod_cast_nonneg o b hb
  unfold alignedOrigin
  omega

lemma alignedOrigin_dvd (o : Int) (b : Nat) (_hb : 0 < b) :
    (b : Int) ∣ alignedOrigin o b := by
  refine ⟨o / b, ?_⟩
  have h := Int.ediv_add_emod o b
  unfold alignedOrigin
  omega

lemma alignedOrigin_greatest (o : Int) (b : Nat) (hb : 0 < b) (m : Int)
    (hm : (b : Int) ∣ m) (hmo : m ≤ o) : m ≤ alignedOrigin o b := by
  obtain ⟨k, rfl⟩ := hm
  have hbz : (0 : Int) < b := by exact_mod_cast hb
  have hk : k ≤ o / b := by
    rw [Int.le_ediv_iff_mul_le hbz, mul_comm]
    exact hmo
  have h := Int.ediv_add_emod o b
  have hmul : (b : Int) * k ≤ b * (o / b) :=
    mul_le_mul_of_nonneg_left hk hbz.le
  unfold alignedOrigin
  omega

lemma alignedSize_ge (o : Int) (b s : Nat) :
    s + (o % (b : Int)).toNat ≤ alignedSize o b s := by
  unfold alignedSize
  split <;> omega

lemma alignedSize_dvd (o : Int) (b s : Nat) (hb : 0 < b) :
    b ∣ alignedSize o b s := by
  unfold alignedSize
  have hdm := Nat.div_add_mod (s + (o % (b : Int)).toNat) b
  have hmlt : (s + (o % (b : Int)).toNat) % b < b := Nat.mod_lt _ hb
  split
  · refine ⟨(s + (o % (b : Int)).toNat) / b + 1, ?_⟩
    rw [Nat.mul_add, Nat.mul_one]
    omega
  · exact Nat.dvd_of_mod_eq_zero (by omega)

lemma alignedSize_le (o : Int) (b s : Nat) (hb : 0 < b) :
    alignedSize o b s ≤ s + 2 * b - 2 := by
  have h0 := mod_cast_nonneg o b hb
  have h1 := mod_cast_lt o b hb
  unfold alignedSize
  have hmlt : (s + (o % (b : Int)).toNat) % b < b := Nat.mod_lt _ hb
  split <;> omega

lemma alignedOrigin_add_size (o : Int) (b s : Nat) (hb : 0 < b) :
    o + s ≤ alignedOrigin o b + alignedSize o b s := by
  have h0 := mod_cast_nonneg o b hb
  have hge := alignedSize_ge o b s
  have hc : ((s + (o % (b : Int)).toNat : Nat) : Int) ≤ (alignedSize o b s : Nat) := by
    exact_mod_cast hge
  unfold alignedOrigin
  push_cast at hc
  omega

/-- Claim C9: for every tile origin o (negative coordinates included) and
positive per-axis block size b, the write path's alignedOrigin
o - (o mod b) is the greatest multiple of b that is at most o, and its
alignedSize is a multiple of b with alignedOrigin + alignedSize covering
o + s. -/
theorem c9_alignment (o : Int) (b s : Nat) (hb : 0 < b) :
    (b : Int) ∣ alignedOrigin o b ∧
    alignedOrigin o b ≤ o ∧
    (∀ m : Int, (b : Int) ∣ m → m ≤ o → m ≤ alignedOrigin o b) ∧
    b ∣ alignedSize o b s ∧
    o + s ≤ alignedOrigin o b + alignedSize o b s :=
  ⟨alignedOrigin_dvd o b hb, alignedOrigin_le o b hb,
   fun m hm hmo => alignedOrigin_greatest o b hb m hm hmo,
   alignedSize_dvd o b s hb, alignedOrigin_add_size o b s hb⟩

/-- Witness for C9 at the concrete negative origin -3 with block size 64 and
tile size 1 (the negative-coordinate case of the spec's tests). -/
theorem c9_alignment_witness :
    0 < 64 ∧
    ((64 : Int) ∣ alignedOrigin (-3) 64 ∧
     alignedOrigin (-3) 64 ≤ -3 ∧
     (∀ m : Int, (64 : Int) ∣ m → m ≤ -3 → m ≤ alignedOrigin (-3) 64) ∧
     64 ∣ alignedSize (-3) 64 1 ∧
     (-3) + (1 : Nat) ≤ alignedOrigin (-3) 64 + alignedSize (-3) 64 1) :=
  ⟨by decide, c9_alignment (-3) 64 1 (by decide)⟩

/-- Claim C3 counterexample: with increments (16384, 16384, 2) the loop guard
holds (the product exceeds MAX_REQ_SIZE) and the two axes tied for the
maximum strictly exceed the third, yet the body halves xincr = 2, which is
not a maximum axis: zincr > yincr and yincr > zincr are both false, so the
else branch fires. -/
theorem c3_counterexample :
    16384 * 16384 * 2 > MAX_REQ_SIZE ∧
    incrStep (16384, 16384, 2) = (16384, 16384, 1) ∧
    halvedAxis 16384 16384 2 = 2 ∧
    ¬ halvedIsMax 16384 16384 2 := by decide

/-- Claim C3 (amended): the halving loop body halves a maximum axis except
when zincr = yincr strictly exceed xincr, in which case it halves xincr (the
strict comparisons zincr > yincr and yincr > zincr both fail and the else
branch falls through to the x axis). -/
theorem c3_amended (z y x : Nat) (_hvol : z * y * x > MAX_REQ_SIZE)
    (hne : ¬ (z = y ∧ x < z)) : halvedIsMax z y x := by
  unfold halvedIsMax halvedAxis
  refine ⟨?_, ?_, ?_⟩ <;> intro h <;> split_ifs at h <;> omega

/-- Witness for the amended C3 at increments (1024, 512, 512); the strictly
largest axis z is the one halved. -/
theorem c3_amended_witness :
    (1024 * 512 * 512 > MAX_REQ_SIZE ∧ ¬ ((1024 : Nat) = 512 ∧ 512 < 1024)) ∧
    halvedIsMax 1024 512 512 :=
  ⟨⟨by decide, by decide⟩, c3_amended 1024 512 512 (by decide) (by decide)⟩

/-- Claim C6: a write through __setitem__ with an index of the correct arity
against an array on a locked version raises the read-only DicedException and
returns with the engine state unchanged: no get or put request is issued and
the store contents are untouched (the locked check runs before any store
access). -/
theorem c6_locked_write (ar : DicedArray) (st : St) (idx : Idx) (val : PyBuf)
    (fuel : Nat) (hlock : ar.locked = true)
    (harity : ar.numdims = idx.dimsreq) :
    setitem ar st idx val fuel = .werr .readOnly st := by
  unfold setitem
  simp [harity, hlock]

/-- Witness for C6: a concrete locked 3D write. -/
theorem c6_locked_write_witness :
    (ar3dLocked.locked = true ∧
     ar3dLocked.numdims = (Idx.tup3 (.int 0) (.int 0) (.int 0)).dimsreq) ∧
    setitem ar3dLocked st0 (Idx.tup3 (.int 0) (.int 0) (.int 0)) bufU8 0 =
      .werr .readOnly st0 :=
  ⟨⟨rfl, rfl⟩, c6_locked_write ar3dLocked st0 _ bufU8 0 rfl rfl⟩

/-- Claim C5 evaluated at its failing input: on a 1D array, a read indexed by
the single integer 5 does not return a bare scalar; the source (line 262)
runs int(data.squeeze) - the call parentheses are missing, so int() is
applied to the bound method object - raising TypeError after the store get
was already issued. -/
theorem c5_code_bug_eval :
    getitem ar1d st0 (.int 5) 0 =
      .rerr .pyTypeError ⟨⟨fun _ _ _ => 0⟩, [⟨.get, (0, 0, 5), (1, 1, 1)⟩]⟩ := by
  rfl

lemma getchunk_store (ar : DicedArray) (st : St) (z y x : Int) (zs ys xs : Nat) :
    (getchunk ar st z y x zs ys xs).2.store = st.store := rfl

lemma getchunkBuf_val (ar : DicedArray) (st : St) (z y x : Int)
    (zs ys xs p q r : Nat) :
    (getchunkBuf ar st z y x zs ys xs).val [p, q, r] =
      st.store.mem (z + p) (y + q) (x + r) := rfl

lemma getchunk_val (ar : DicedArray) (st : St) (z y x : Int)
    (zs ys xs p q r : Nat) :
    (getchunk ar st z y x zs ys xs).1.val [p, q, r] =
      st.store.mem (z + p) (y + q) (x + r) := rfl

lemma mergedData_view3 (ar : DicedArray) (st : St) (z y x : Int) (data : PyBuf)
    (p q r : Nat) :
    (mergedData ar st z y x data).view3 p q r =
      if (z - alignedOrigin z ar.zblk).toNat ≤ p ∧
         p < (z - alignedOrigin z ar.zblk).toNat + data.shape3.1 ∧
         (y - alignedOrigin y ar.yblk).toNat ≤ q ∧
         q < (y - alignedOrigin y ar.yblk).toNat + data.shape3.2.1 ∧
         (x - alignedOrigin x ar.xblk).toNat ≤ r ∧
         r < (x - alignedOrigin x ar.xblk).toNat + data.shape3.2.2 then
        castVal ar.dtype
          (data.view3 (p - (z - alignedOrigin z ar.zblk).toNat)
            (q - (y - alignedOrigin y ar.yblk).toNat)
            (r - (x - alignedOrigin x ar.xblk).toNat))
      else
        st.store.mem (alignedOrigin z ar.zblk + p) (alignedOrigin y ar.yblk + q)
          (alignedOrigin x ar.xblk + r) := rfl

/-- The effect of a non-block-aligned _setchunk on the store: it always
succeeds (the merged buffer carries the array's dtype), writes exactly the
caller's data (cast to the array dtype) on the requested sub-rectangle, and
leaves every other coordinate - inside or outside the fetched aligned blocks -
with the value the store held before. -/
lemma setchunk_unaligned (ar : DicedArray) (st : St) (z y x : Int) (data : PyBuf)
    (hzb : 0 < ar.zblk) (hyb : 0 < ar.yblk) (hxb : 0 < ar.xblk)
    (hal : blockAlignedFlag ar z y x data.shape3.1 data.shape3.2.1
      data.shape3.2.2 = false) :
    ∃ st', setchunk ar st z y x data = .sok st' ∧
      (∀ a b c : Int,
        z ≤ a → a < z + data.shape3.1 → y ≤ b → b < y + data.shape3.2.1 →
        x ≤ c → c < x + data.shape3.2.2 →
        st'.store.mem a b c =
          castVal ar.dtype
            (data.view3 (a - z).toNat (b - y).toNat (c - x).toNat)) ∧
      (∀ a b c : Int,
        ¬ (z ≤ a ∧ a < z + data.shape3.1 ∧ y ≤ b ∧ b < y + data.shape3.2.1 ∧
           x ≤ c ∧ c < x + data.shape3.2.2) →
        st'.store.mem a b c = st.store.mem a b c) := by
  have hzo := alignedOrigin_le z ar.zblk hzb
  have hyo := alignedOrigin_le y ar.yblk hyb
  have hxo := alignedOrigin_le x ar.xblk hxb
  have hzc := alignedOrigin_add_size z ar.zblk data.shape3.1 hzb
  have hyc := alignedOrigin_add_size y ar.yblk data.shape3.2.1 hyb
  have hxc := alignedOrigin_add_size x ar.xblk data.shape3.2.2 hxb
  rw [setchunk, if_neg (by simp [hal])]
  rw [putchunk]
  rw [if_neg (by simp [mergedData])]
  refine ⟨_, rfl, ?_, ?_⟩
  · intro a b c h1 h2 h3 h4 h5 h6
    show (if _ ∧ _ ∧ _ ∧ _ ∧ _ ∧ _ then _ else _) = _
    rw [if_pos]
    · rw [mergedData_view3]
      rw [if_pos]
      · have e1 : (a - alignedOrigin z ar.zblk).toNat -
            (z - alignedOrigin z ar.zblk).toNat = (a - z).toNat := by omega
        have e2 : (b - alignedOrigin y ar.yblk).toNat -
            (y - alignedOrigin y ar.yblk).toNat = (b - y).toNat := by omega
        have e3 : (c - alignedOrigin x ar.xblk).toNat -
            (x - alignedOrigin x ar.xblk).toNat = (c - x).toNat := by omega
        rw [e1, e2, e3]
      · refine ⟨by omega, by omega, by omega, by omega, by omega, by omega⟩
    · show alignedOrigin z ar.zblk ≤ a ∧
        a < alignedOrigin z ar.zblk + (mergedData ar st z y x data).shape3.1 ∧
        alignedOrigin y ar.yblk ≤ b ∧
        b < alignedOrigin y ar.yblk + (mergedData ar st z y x data).shape3.2.1 ∧
        alignedOrigin x ar.xblk ≤ c ∧
        c < alignedOrigin x ar.xblk + (mergedData ar st z y x data).shape3.2.2
      have hm1 : (mergedData ar st z y x data).shape3.1 =
          alignedSize z ar.zblk data.shape3.1 := rfl
      have hm2 : (mergedData ar st z y x data).shape3.2.1 =
          alignedSize y ar.yblk data.shape3.2.1 := rfl
      have hm3 : (mergedData ar st z y x data).shape3.2.2 =
          alignedSize x ar.xblk data.shape3.2.2 := rfl
      rw [hm1, hm2, hm3]
      refine ⟨by omega, by omega, by omega, by omega, by omega, by omega⟩
  · intro a b c h
    show (if _ ∧ _ ∧ _ ∧ _ ∧ _ ∧ _ then _ else _) = _
    have hm1 : (mergedData ar st z y x data).shape3.1 =
        alignedSize z ar.zblk data.shape3.1 := rfl
    have hm2 : (mergedData ar st z y x data).shape3.2.1 =
        alignedSize y ar.yblk data.shape3.2.1 := rfl
    have hm3 : (mergedData ar st z y x data).shape3.2.2 =
        alignedSize x ar.xblk data.shape3.2.2 := rfl
    split
    · next hin =>
      rw [hm1, hm2, hm3] at hin
      obtain ⟨i1, i2, i3, i4, i5, i6⟩ := hin
      rw [mergedData_view3]
      rw [if_neg (by omega)]
      have e1 : alignedOrigin z ar.zblk + ((a - alignedOrigin z ar.zblk).toNat : Int) = a := by
        omega
      have e2 : alignedOrigin y ar.yblk + ((b - alignedOrigin y ar.yblk).toNat : Int) = b := by
        omega
      have e3 : alignedOrigin x ar.xblk + ((c - alignedOrigin x ar.xblk).toNat : Int) = c := by
        omega
      rw [e1, e2, e3]
    · rw [getchunk_store]

/-- Claim C8: a write of a tile that is not block-aligned performs
read-modify-write: _setchunk succeeds, and after it every coordinate outside
the requested sub-rectangle - in particular every coordinate inside the
fetched aligned blocks but outside the sub-rectangle - holds the value the
store previously held, while the sub-rectangle itself receives the caller's
data at offset (origin - alignedOrigin). -/
theorem c8_unaligned_frame (ar : DicedArray) (st : St) (z y x : Int)
    (data : PyBuf) (hzb : 0 < ar.zblk) (hyb : 0 < ar.yblk) (hxb : 0 < ar.xblk)
    (hal : blockAlignedFlag ar z y x data.shape3.1 data.shape3.2.1
      data.shape3.2.2 = false) :
    ∃ st', setchunk ar st z y x data = .sok st' ∧
      (∀ a b c : Int,
        ¬ (z ≤ a ∧ a < z + data.shape3.1 ∧ y ≤ b ∧ b < y + data.shape3.2.1 ∧
           x ≤ c ∧ c < x + data.shape3.2.2) →
        st'.store.mem a b c = st.store.mem a b c) ∧
      (∀ a b c : Int,
        z ≤ a → a < z + data.shape3.1 → y ≤ b → b < y + data.shape3.2.1 →
        x ≤ c → c < x + data.shape3.2.2 →
        st'.store.mem a b c =
          castVal ar.dtype
            (data.view3 (a - z).toNat (b - y).toNat (c - x).toNat)) := by
  obtain ⟨st', he, hin, hout⟩ := setchunk_unaligned ar st z y x data hzb hyb hxb hal
  exact ⟨st', he, hout, hin⟩

/-- Witness for C8: a single-element unaligned write at (1,1,1) on a
2x2x2-block uint64 array. -/
theorem c8_unaligned_frame_witness :
    (0 < arU64.zblk ∧ 0 < arU64.yblk ∧ 0 < arU64.xblk ∧
     blockAlignedFlag arU64 1 1 1 bufU64.shape3.1 bufU64.shape3.2.1
       bufU64.shape3.2.2 = false) ∧
    (∃ st', setchunk arU64 st0 1 1 1 bufU64 = .sok st' ∧
      (∀ a b c : Int,
        ¬ ((1 : Int) ≤ a ∧ a < 1 + bufU64.shape3.1 ∧ (1 : Int) ≤ b ∧
           b < 1 + bufU64.shape3.2.1 ∧ (1 : Int) ≤ c ∧ c < 1 + bufU64.shape3.2.2) →
        st'.store.mem a b c = st0.store.mem a b c) ∧
      (∀ a b c : Int,
        (1 : Int) ≤ a → a < 1 + bufU64.shape3.1 → (1 : Int) ≤ b →
        b < 1 + bufU64.shape3.2.1 → (1 : Int) ≤ c → c < 1 + bufU64.shape3.2.2 →
        st'.store.mem a b c =
          castVal arU64.dtype
            (bufU64.view3 (a - 1).toNat (b - 1).toNat (c - 1).toNat))) :=
  ⟨⟨by decide, by decide, by decide, by rfl⟩,
   c8_unaligned_frame arU64 st0 1 1 1 bufU64 (by decide) (by decide) (by decide)
     (by rfl)⟩

/-- Claim C7 counterexample: on a uint64 array (2x2x2 blocks), writing the
single-element uint16 buffer holding 7 at the unaligned point (1,1,1)
succeeds - no type-mismatch error is raised - and the store afterwards holds
the converted value 7 at that coordinate: the read-modify-write merge
silently casts the wrong-dtype data. -/
theorem c7_counterexample :
    (setitem arU64 st0 (.tup3 (.int 1) (.int 1) (.int 1)) bufU16 0).isOk = true ∧
    (setitem arU64 st0 (.tup3 (.int 1) (.int 1) (.int 1)) bufU16 0).memAt 1 1 1 = 7 :=
  ⟨rfl, rfl⟩

/-- Claim C7 (amended): _setchunk itself never checks the buffer's element
type.  A wrong-dtype buffer is rejected only when the tile is block-aligned -
the typed put of the store interface (spec section 6) refuses it, leaving the
store contents unchanged; a non-block-aligned wrong-dtype write succeeds,
silently value-converting the caller's data into the array's element type
during the read-modify-write merge. -/
theorem c7_amended (ar : DicedArray) (st : St) (z y x : Int) (data : PyBuf)
    (hzb : 0 < ar.zblk) (hyb : 0 < ar.yblk) (hxb : 0 < ar.xblk)
    (hdt : data.dtype ≠ ar.dtype) :
    (blockAlignedFlag ar z y x data.shape3.1 data.shape3.2.1 data.shape3.2.2
        = true →
      ∃ st₁, setchunk ar st z y x data = .serr .storeTypeError st₁ ∧
        st₁.store = st.store) ∧
    (blockAlignedFlag ar z y x data.shape3.1 data.shape3.2.1 data.shape3.2.2
        = false →
      ∃ st', setchunk ar st z y x data = .sok st' ∧
        ∀ a b c : Int,
          z ≤ a → a < z + data.shape3.1 → y ≤ b → b < y + data.shape3.2.1 →
          x ≤ c → c < x + data.shape3.2.2 →
          st'.store.mem a b c =
            castVal ar.dtype
              (data.view3 (a - z).toNat (b - y).toNat (c - x).toNat)) := by
  constructor
  · intro hal
    rw [setchunk, if_pos (by simp [hal]), putchunk, if_pos hdt]
    exact ⟨_, rfl, rfl⟩
  · intro hal
    obtain ⟨st', he, hin, _⟩ := setchunk_unaligned ar st z y x data hzb hyb hxb hal
    exact ⟨st', he, hin⟩

/-- Witness for the amended C7: uint16 data against the uint64 array. -/
theorem c7_amended_witness :
    (0 < arU64.zblk ∧ 0 < arU64.yblk ∧ 0 < arU64.xblk ∧
     bufU16.dtype ≠ arU64.dtype) ∧
    ((blockAlignedFlag arU64 1 1 1 bufU16.shape3.1 bufU16.shape3.2.1
        bufU16.shape3.2.2 = true →
      ∃ st₁, setchunk arU64 st0 1 1 1 bufU16 = .serr .storeTypeError st₁ ∧
        st₁.store = st0.store) ∧
    (blockAlignedFlag arU64 1 1 1 bufU16.shape3.1 bufU16.shape3.2.1
        bufU16.shape3.2.2 = false →
      ∃ st', setchunk arU64 st0 1 1 1 bufU16 = .sok st' ∧
        ∀ a b c : Int,
          (1 : Int) ≤ a → a < 1 + bufU16.shape3.1 → (1 : Int) ≤ b →
          b < 1 + bufU16.shape3.2.1 → (1 : Int) ≤ c → c < 1 + bufU16.shape3.2.2 →
          st'.store.mem a b c =
            castVal arU64.dtype
              (bufU16.view3 (a - 1).toNat (b - 1).toNat (c - 1).toNat))) :=
  ⟨⟨by decide, by decide, by decide, by decide⟩,
   c7_amended arU64 st0 1 1 1 bufU16 (by decide) (by decide) (by decide)
     (by decide)⟩

/-- Claim C4 counterexample: a write of exactly MAX_REQ_SIZE elements (512^3)
at the unaligned origin (1,1,1) of a 64^3-block array takes the single-call
path, and its read-modify-write issues a get and a put of 576^3 = 191102976
elements - above MAX_REQ_SIZE, so the engine does issue requests exceeding
the transfer cap. -/
theorem c4_counterexample :
    (setitem ar3d st0 idx512 val512 0).logOf =
      [⟨.get, (0, 0, 0), (576, 576, 576)⟩, ⟨.put, (0, 0, 0), (576, 576, 576)⟩] ∧
    MAX_REQ_SIZE < Req.vol ⟨.get, (0, 0, 0), (576, 576, 576)⟩ :=
  ⟨rfl, by decide⟩

lemma mem_rangeStep {stop step v : Nat} :
    v ∈ rangeStep stop step ↔
      ∃ k, k < (stop + step - 1) / step ∧ v = k * step := by
  simp only [rangeStep, List.mem_map, List.mem_range]
  constructor
  · rintro ⟨k, hk, rfl⟩
    exact ⟨k, hk, rfl⟩
  · rintro ⟨k, hk, rfl⟩
    exact ⟨k, hk, rfl⟩

lemma div_mul_mem_rangeStep {stop step v : Nat} (hs : 0 < step) (hv : v < stop) :
    v / step * step ∈ rangeStep stop step := by
  rw [mem_rangeStep]
  refine ⟨v / step, ?_, rfl⟩
  have h1 : stop + step - 1 = (stop - 1) + step := by omega
  rw [h1, Nat.add_div_right _ hs]
  have h2 : v / step ≤ (stop - 1) / step := Nat.div_le_div_right (by omega)
  omega

lemma cover_bounds {v stop step : Nat} (hs : 0 < step) (hv : v < stop) :
    v / step * step ≤ v ∧
      v < v / step * step + min (stop - v / step * step) step := by
  have hdm := Nat.div_add_mod v step
  rw [Nat.mul_comm] at hdm
  have hmlt : v % step < step := Nat.mod_lt _ hs
  omega

lemma readFold_frame (ar : DicedArray) (zst yst xst : Int)
    (zs ys xs zincr yincr xincr a b c : Nat) (ts : List (Nat × Nat × Nat)) :
    ∀ acc,
      (∀ t ∈ ts, ¬ (t.1 ≤ a ∧ a < t.1 + min (zs - t.1) zincr ∧
        t.2.1 ≤ b ∧ b < t.2.1 + min (ys - t.2.1) yincr ∧
        t.2.2 ≤ c ∧ c < t.2.2 + min (xs - t.2.2) xincr)) →
      (ts.foldl (readStep ar zst yst xst zs ys xs zincr yincr xincr) acc).1 a b c
        = acc.1 a b c := by
  induction ts with
  | nil => intro acc _; rfl
  | cons t ts ih =>
    intro acc h
    rw [List.foldl_cons, ih _ (fun t' ht' => h t' (List.mem_cons_of_mem _ ht'))]
    show (if _ ∧ _ ∧ _ ∧ _ ∧ _ ∧ _ then _ else acc.1 a b c) = acc.1 a b c
    rw [if_neg (h t (List.mem_cons_self t ts))]

lemma readFold_covered (ar : DicedArray) (st : St) (zst yst xst : Int)
    (zs ys xs zincr yincr xincr a b c : Nat) (ts : List (Nat × Nat × Nat)) :
    ∀ acc t, acc.2.store = st.store → t ∈ ts →
      (t.1 ≤ a ∧ a < t.1 + min (zs - t.1) zincr ∧
       t.2.1 ≤ b ∧ b < t.2.1 + min (ys - t.2.1) yincr ∧
       t.2.2 ≤ c ∧ c < t.2.2 + min (xs - t.2.2) xincr) →
      (ts.foldl (readStep ar zst yst xst zs ys xs zincr yincr xincr) acc).1 a b c
        = st.store.mem (zst + a) (yst + b) (xst + c) := by
  induction ts with
  | nil => intro acc t _ h _; exact absurd h (List.not_mem_nil t)
  | cons hd tl ih =>
    intro acc t hst hmem hcov
    rw [List.foldl_cons]
    rcases List.mem_cons.mp hmem with rfl | htl
    · have hval : (readStep ar zst yst xst zs ys xs zincr yincr xincr acc t).1 a b c
          = st.store.mem (zst + a) (yst + b) (xst + c) := by
        show (if _ ∧ _ ∧ _ ∧ _ ∧ _ ∧ _ then _ else acc.1 a b c) = _
        rw [if_pos hcov]
        rw [getchunk_val, hst]
        obtain ⟨h1, h2, h3, h4, h5, h6⟩ := hcov
        have e1 : (zst + (t.1 : Int)) + ((a - t.1 : Nat) : Int) = zst + a := by omega
        have e2 : (yst + (t.2.1 : Int)) + ((b - t.2.1 : Nat) : Int) = yst + b := by
          omega
        have e3 : (xst + (t.2.2 : Int)) + ((c - t.2.2 : Nat) : Int) = xst + c := by
          omega
        rw [e1, e2, e3]
      by_cases hex : ∃ t' ∈ tl, (t'.1 ≤ a ∧ a < t'.1 + min (zs - t'.1) zincr ∧
          t'.2.1 ≤ b ∧ b < t'.2.1 + min (ys - t'.2.1) yincr ∧
          t'.2.2 ≤ c ∧ c < t'.2.2 + min (xs - t'.2.2) xincr)
      · obtain ⟨t', ht', hc'⟩ := hex
        exact ih _ t' (by rw [show (readStep ar zst yst xst zs ys xs zincr yincr
          xincr acc t).2.store = acc.2.store from rfl, hst]) ht' hc'
      · rw [readFold_frame ar zst yst xst zs ys xs zincr yincr xincr a b c tl _
          (fun t' ht' hP => hex ⟨t', ht', hP⟩)]
        exact hval
    · exact ih _ t (by rw [show (readStep ar zst yst xst zs ys xs zincr yincr
        xincr acc hd).2.store = acc.2.store from rfl, hst]) htl hcov

/-- Claim C2: tiling transparency of the read path.  For any positive
increments (so for every tiling the halving loop can choose) and any region
larger than MAX_REQ_SIZE, every element of the buffer assembled from per-tile
gets equals the corresponding element of the single untiled get over the
whole region. -/
theorem c2_tiling_transparency (ar : DicedArray) (st : St) (zst yst xst : Int)
    (zs ys xs zincr yincr xincr : Nat)
    (hzi : 0 < zincr) (hyi : 0 < yincr) (hxi : 0 < xincr)
    (_hvol : MAX_REQ_SIZE < zs * ys * xs)
    (a b c : Nat) (ha : a < zs) (hb : b < ys) (hc : c < xs) :
    (readTiles ar st zst yst xst zs ys xs zincr yincr xincr).1 a b c =
      (getchunkBuf ar st zst yst xst zs ys xs).val [a, b, c] := by
  rw [getchunkBuf_val]
  unfold readTiles
  have hza := cover_bounds hzi ha
  have hyb := cover_bounds hyi hb
  have hxc := cover_bounds hxi hc
  refine readFold_covered ar st zst yst xst zs ys xs zincr yincr xincr a b c _ _
    (a / zincr * zincr, b / yincr * yincr, c / xincr * xincr) rfl ?_ ?_
  · refine List.mem_flatMap.mpr ⟨a / zincr * zincr, div_mul_mem_rangeStep hzi ha, ?_⟩
    refine List.mem_flatMap.mpr ⟨b / yincr * yincr, div_mul_mem_rangeStep hyi hb, ?_⟩
    exact List.mem_map.mpr ⟨c / xincr * xincr, div_mul_mem_rangeStep hxi hc, rfl⟩
  · exact ⟨hza.1, hza.2, hyb.1, hyb.2, hxc.1, hxc.2⟩

lemma incrStep_pos (t : Nat × Nat × Nat) (hz : 0 < t.1) (hy : 0 < t.2.1)
    (hx : 0 < t.2.2) :
    0 < (incrStep t).1 ∧ 0 < (incrStep t).2.1 ∧ 0 < (incrStep t).2.2 := by
  obtain ⟨z, y, x⟩ := t
  simp only [incrStep]
  split_ifs <;> refine ⟨?_, ?_, ?_⟩ <;> simp_all <;> omega

lemma computeIncrs_pos : ∀ (fuel : Nat) (t r : Nat × Nat × Nat),
    computeIncrs fuel t = some r → 0 < t.1 → 0 < t.2.1 → 0 < t.2.2 →
    0 < r.1 ∧ 0 < r.2.1 ∧ 0 < r.2.2 := by
  intro fuel
  induction fuel with
  | zero =>
    intro t r h hz hy hx
    unfold computeIncrs at h
    split at h
    · exact absurd h (by simp)
    · cases h
      exact ⟨hz, hy, hx⟩
  | succ fuel ih =>
    intro t r h hz hy hx
    unfold computeIncrs at h
    split at h
    · obtain ⟨h1, h2, h3⟩ := incrStep_pos t hz hy hx
      exact ih (incrStep t) r h h1 h2 h3
    · cases h
      exact ⟨hz, hy, hx⟩

lemma computeIncrs_le : ∀ (fuel : Nat) (t r : Nat × Nat × Nat),
    computeIncrs fuel t = some r → r.1 * r.2.1 * r.2.2 ≤ MAX_REQ_SIZE := by
  intro fuel
  induction fuel with
  | zero =>
    intro t r h
    unfold computeIncrs at h
    split at h
    · exact absurd h (by simp)
    · cases h
      omega
  | succ fuel ih =>
    intro t r h
    unfold computeIncrs at h
    split at h
    · exact ih (incrStep t) r h
    · cases h
      omega

lemma tiles3_ne_nil {zs ys xs zincr yincr xincr : Nat} (hz : 0 < zs)
    (hy : 0 < ys) (hx : 0 < xs) (hzi : 0 < zincr) (hyi : 0 < yincr)
    (hxi : 0 < xincr) : tiles3 zs ys xs zincr yincr xincr ≠ [] := by
  have h0 : ((0, 0, 0) : Nat × Nat × Nat) ∈ tiles3 zs ys xs zincr yincr xincr := by
    refine List.mem_flatMap.mpr ⟨0, ?_, List.mem_flatMap.mpr ⟨0, ?_,
      List.mem_map.mpr ⟨0, ?_, rfl⟩⟩⟩
    · rw [mem_rangeStep]
      have h1 : 1 ≤ (zs + zincr - 1) / zincr := by
        rw [Nat.le_div_iff_mul_le hzi]
        omega
      exact ⟨0, by omega, by omega⟩
    · rw [mem_rangeStep]
      have h1 : 1 ≤ (ys + yincr - 1) / yincr := by
        rw [Nat.le_div_iff_mul_le hyi]
        omega
      exact ⟨0, by omega, by omega⟩
    · rw [mem_rangeStep]
      have h1 : 1 ≤ (xs + xincr - 1) / xincr := by
        rw [Nat.le_div_iff_mul_le hxi]
        omega
      exact ⟨0, by omega, by omega⟩
  exact List.ne_nil_of_mem h0

lemma writeFold_serr (ar : DicedArray) (val : PyBuf) (zst yst xst : Int)
    (zs ys xs zincr yincr xincr : Nat) (ts : List (Nat × Nat × Nat))
    (e : Err) (s : St) :
    ts.foldl (writeStep ar val zst yst xst zs ys xs zincr yincr xincr)
      (.serr e s) = .serr e s := by
  induction ts with
  | nil => rfl
  | cons t ts ih => rw [List.foldl_cons]; exact ih

lemma writeFold_err (ar : DicedArray) (val : PyBuf) (zst yst xst : Int)
    (zs ys xs zincr yincr xincr : Nat) (ts : List (Nat × Nat × Nat))
    (hval : val.dims.length < 3) (hne : ts ≠ []) (st : St) :
    ts.foldl (writeStep ar val zst yst xst zs ys xs zincr yincr xincr)
      (.sok st) = .serr .pyIndexError st := by
  cases ts with
  | nil => exact absurd rfl hne
  | cons t ts =>
    rw [List.foldl_cons]
    have hstep : writeStep ar val zst yst xst zs ys xs zincr yincr xincr
        (.sok st) t = .serr .pyIndexError st := by
      simp only [writeStep, slice3]
      rw [if_pos hval]
    rw [hstep]
    exact writeFold_serr ar val zst yst xst zs ys xs zincr yincr xincr ts _ _

lemma toNat_prod_le (a b c : Int) (M : Nat) (h : a * b * c ≤ (M : Int)) :
    a.toNat * b.toNat * c.toNat ≤ M := by
  rcases le_or_lt a 0 with ha | ha
  · rw [Int.toNat_of_nonpos ha]
    simp
  rcases le_or_lt b 0 with hb | hb
  · rw [Int.toNat_of_nonpos hb]
    simp
  rcases le_or_lt c 0 with hc | hc
  · rw [Int.toNat_of_nonpos hc]
    simp
  have hcast : ((a.toNat * b.toNat * c.toNat : Nat) : Int) ≤ (M : Int) := by
    push_cast [Int.toNat_of_nonneg ha.le, Int.toNat_of_nonneg hb.le,
      Int.toNat_of_nonneg hc.le]
    exact h
  exact_mod_cast hcast

lemma readFold_log (ar : DicedArray) (zst yst xst : Int)
    (zs ys xs zincr yincr xincr : Nat) (ts : List (Nat × Nat × Nat)) :
    ∀ acc req,
      req ∈ (ts.foldl (readStep ar zst yst xst zs ys xs zincr yincr xincr)
        acc).2.log →
      req ∈ acc.2.log ∨ ∃ t ∈ ts,
        req = ⟨.get, (zst + t.1, yst + t.2.1, xst + t.2.2),
          (min (zs - t.1) zincr, min (ys - t.2.1) yincr,
           min (xs - t.2.2) xincr)⟩ := by
  induction ts with
  | nil => intro acc req h; exact Or.inl h
  | cons t ts ih =>
    intro acc req h
    rw [List.foldl_cons] at h
    rcases ih _ req h with hin | ⟨t', ht', hr⟩
    · have hlog : (readStep ar zst yst xst zs ys xs zincr yincr xincr acc t).2.log
          = acc.2.log ++ [⟨.get, (zst + t.1, yst + t.2.1, xst + t.2.2),
            (min (zs - t.1) zincr, min (ys - t.2.1) yincr,
             min (xs - t.2.2) xincr)⟩] := rfl
      rw [hlog] at hin
      rcases List.mem_append.mp hin with h1 | h2
      · exact Or.inl h1
      · exact Or.inr ⟨t, List.mem_cons_self t ts, List.mem_singleton.mp h2⟩
    · exact Or.inr ⟨t', List.mem_cons_of_mem _ ht', hr⟩

lemma setchunk_log (ar : DicedArray) (st : St) (z y x : Int) (data : PyBuf)
    (hzb : 0 < ar.zblk) (hyb : 0 < ar.yblk) (hxb : 0 < ar.xblk) (req : Req)
    (h : req ∈ (setchunk ar st z y x data).logOf) :
    req ∈ st.log ∨
      req.vol ≤ (data.shape3.1 + 2 * ar.zblk - 2) *
        (data.shape3.2.1 + 2 * ar.yblk - 2) *
        (data.shape3.2.2 + 2 * ar.xblk - 2) := by
  have hb1 : data.shape3.1 ≤ data.shape3.1 + 2 * ar.zblk - 2 := by omega
  have hb2 : data.shape3.2.1 ≤ data.shape3.2.1 + 2 * ar.yblk - 2 := by omega
  have hb3 : data.shape3.2.2 ≤ data.shape3.2.2 + 2 * ar.xblk - 2 := by omega
  have ha1 := alignedSize_le z ar.zblk data.shape3.1 hzb
  have ha2 := alignedSize_le y ar.yblk data.shape3.2.1 hyb
  have ha3 := alignedSize_le x ar.xblk data.shape3.2.2 hxb
  unfold setchunk at h
  split at h
  · unfold putchunk at h
    split at h
    · have hlog : req ∈ st.log ++ [(⟨.put,
          (alignedOrigin z ar.zblk, alignedOrigin y ar.yblk, alignedOrigin x ar.xblk),
          data.shape3⟩ : Req)] := h
      rcases List.mem_append.mp hlog with h1 | h2
      · exact Or.inl h1
      · right
        rw [List.mem_singleton.mp h2]
        show data.shape3.1 * data.shape3.2.1 * data.shape3.2.2 ≤ _
        exact Nat.mul_le_mul (Nat.mul_le_mul hb1 hb2) hb3
    · have hlog : req ∈ st.log ++ [(⟨.put,
          (alignedOrigin z ar.zblk, alignedOrigin y ar.yblk, alignedOrigin x ar.xblk),
          data.shape3⟩ : Req)] := h
      rcases List.mem_append.mp hlog with h1 | h2
      · exact Or.inl h1
      · right
        rw [List.mem_singleton.mp h2]
        show data.shape3.1 * data.shape3.2.1 * data.shape3.2.2 ≤ _
        exact Nat.mul_le_mul (Nat.mul_le_mul hb1 hb2) hb3
  · have hbound : alignedSize z ar.zblk data.shape3.1 *
        alignedSize y ar.yblk data.shape3.2.1 *
        alignedSize x ar.xblk data.shape3.2.2 ≤
        (data.shape3.1 + 2 * ar.zblk - 2) * (data.shape3.2.1 + 2 * ar.yblk - 2) *
          (data.shape3.2.2 + 2 * ar.xblk - 2) :=
      Nat.mul_le_mul (Nat.mul_le_mul ha1 ha2) ha3
    unfold putchunk at h
    split at h
    · have hlog : req ∈ (st.log ++ [(⟨.get,
          (alignedOrigin z ar.zblk, alignedOrigin y ar.yblk, alignedOrigin x ar.xblk),
          (alignedSize z ar.zblk data.shape3.1, alignedSize y ar.yblk data.shape3.2.1,
           alignedSize x ar.xblk data.shape3.2.2)⟩ : Req)]) ++
          [(⟨.put,
            (alignedOrigin z ar.zblk, alignedOrigin y ar.yblk, alignedOrigin x ar.xblk),
            (mergedData ar st z y x data).shape3⟩ : Req)] := h
      rcases List.mem_append.mp hlog with h12 | h3
      · rcases List.mem_append.mp h12 with h1 | h2
        · exact Or.inl h1
        · right
          rw [List.mem_singleton.mp h2]
          exact hbound
      · right
        rw [List.mem_singleton.mp h3]
        exact hbound
    · have hlog : req ∈ (st.log ++ [(⟨.get,
          (alignedOrigin z ar.zblk, alignedOrigin y ar.yblk, alignedOrigin x ar.xblk),
          (alignedSize z ar.zblk data.shape3.1, alignedSize y ar.yblk data.shape3.2.1,
           alignedSize x ar.xblk data.shape3.2.2)⟩ : Req)]) ++
          [(⟨.put,
            (alignedOrigin z ar.zblk, alignedOrigin y ar.yblk, alignedOrigin x ar.xblk),
            (mergedData ar st z y x data).shape3⟩ : Req)] := h
      rcases List.mem_append.mp hlog with h12 | h3
      · rcases List.mem_append.mp h12 with h1 | h2
        · exact Or.inl h1
        · right
          rw [List.mem_singleton.mp h2]
          exact hbound
      · right
        rw [List.mem_singleton.mp h3]
        exact hbound

lemma getitem_log_le (ar : DicedArray) (st : St) (idx : Idx) (fuel : Nat)
    (req : Req) (h : req ∈ (getitem ar st idx fuel).logOf) :
    req ∈ st.log ∨ req.vol ≤ MAX_REQ_SIZE := by
  simp only [getitem] at h
  split at h
  · exact Or.inl h
  · split at h
    · next hbig =>
      split at h
      · next hci => simp [RRes.logOf] at h
      · next incrs hci =>
        have hstep : ∀ req',
            req' ∈ (readTiles ar st idx.slices.1.1 idx.slices.2.1.1 idx.slices.2.2.1
              (idx.slices.1.2 - idx.slices.1.1).toNat
              (idx.slices.2.1.2 - idx.slices.2.1.1).toNat
              (idx.slices.2.2.2 - idx.slices.2.2.1).toNat
              incrs.1 incrs.2.1 incrs.2.2).2.log →
            req' ∈ st.log ∨ req'.vol ≤ MAX_REQ_SIZE := by
          intro req' h'
          rcases readFold_log ar idx.slices.1.1 idx.slices.2.1.1 idx.slices.2.2.1
            (idx.slices.1.2 - idx.slices.1.1).toNat
            (idx.slices.2.1.2 - idx.slices.2.1.1).toNat
            (idx.slices.2.2.2 - idx.slices.2.2.1).toNat
            incrs.1 incrs.2.1 incrs.2.2 _ _ req' h' with hin | ⟨t, _, hr⟩
          · exact Or.inl hin
          · right
            rw [hr]
            have hle := computeIncrs_le fuel _ incrs hci
            show min _ incrs.1 * min _ incrs.2.1 * min _ incrs.2.2 ≤ _
            exact le_trans (Nat.mul_le_mul (Nat.mul_le_mul
              (Nat.min_le_right _ _) (Nat.min_le_right _ _))
              (Nat.min_le_right _ _)) hle
        split at h
        · exact hstep req h
        · exact hstep req h
    · next hsmall =>
      have hvle : (idx.slices.1.2 - idx.slices.1.1) *
          (idx.slices.2.1.2 - idx.slices.2.1.1) *
          (idx.slices.2.2.2 - idx.slices.2.2.1) ≤ (MAX_REQ_SIZE : Int) :=
        le_of_not_lt hsmall
      have hstep : ∀ req',
          req' ∈ (getchunk ar st idx.slices.1.1 idx.slices.2.1.1 idx.slices.2.2.1
            (idx.slices.1.2 - idx.slices.1.1).toNat
            (idx.slices.2.1.2 - idx.slices.2.1.1).toNat
            (idx.slices.2.2.2 - idx.slices.2.2.1).toNat).2.log →
          req' ∈ st.log ∨ req'.vol ≤ MAX_REQ_SIZE := by
        intro req' h'
        have hlog : req' ∈ st.log ++ [(⟨.get,
            (idx.slices.1.1, idx.slices.2.1.1, idx.slices.2.2.1),
            ((idx.slices.1.2 - idx.slices.1.1).toNat,
             (idx.slices.2.1.2 - idx.slices.2.1.1).toNat,
             (idx.slices.2.2.2 - idx.slices.2.2.1).toNat)⟩ : Req)] := h'
        rcases List.mem_append.mp hlog with h1 | h2
        · exact Or.inl h1
        · right
          rw [List.mem_singleton.mp h2]
          exact toNat_prod_le _ _ _ _ hvle
      split at h
      · exact hstep req h
      · exact hstep req h

/-- Claim C4 (amended): every request the read path issues stays within
MAX_REQ_SIZE (the single-call guard, or the clamped tile sizes capped by the
halving loop's increments), while a request issued by a _setchunk write is
bounded only by the block-alignment padding of its tile,
prod(s_i + 2*b_i - 2) - which, as the counterexample shows, can exceed
MAX_REQ_SIZE for an unaligned tile. -/
theorem c4_amended :
    (∀ (ar : DicedArray) (st : St) (idx : Idx) (fuel : Nat) (req : Req),
      req ∈ (getitem ar st idx fuel).logOf →
      req ∈ st.log ∨ req.vol ≤ MAX_REQ_SIZE) ∧
    (∀ (ar : DicedArray) (st : St) (z y x : Int) (data : PyBuf) (req : Req),
      0 < ar.zblk → 0 < ar.yblk → 0 < ar.xblk →
      req ∈ (setchunk ar st z y x data).logOf →
      req ∈ st.log ∨
        req.vol ≤ (data.shape3.1 + 2 * ar.zblk - 2) *
          (data.shape3.2.1 + 2 * ar.yblk - 2) *
          (data.shape3.2.2 + 2 * ar.xblk - 2)) :=
  ⟨fun ar st idx fuel req h => getitem_log_le ar st idx fuel req h,
   fun ar st z y x data req hzb hyb hxb h =>
     setchunk_log ar st z y x data hzb hyb hxb req h⟩

/-- Witness for the amended C4: the single get of a small 1D read is within
MAX_REQ_SIZE, and the 576^3 get of the unaligned 512^3 write is within its
padding bound. -/
theorem c4_amended_witness :
    ((⟨.get, (0, 0, 0), (1, 1, 1)⟩ : Req) ∈ st0.log ∨
      (⟨.get, (0, 0, 0), (1, 1, 1)⟩ : Req).vol ≤ MAX_REQ_SIZE) ∧
    ((⟨.get, (0, 0, 0), (576, 576, 576)⟩ : Req) ∈ st0.log ∨
      (⟨.get, (0, 0, 0), (576, 576, 576)⟩ : Req).vol ≤
        (val512.shape3.1 + 2 * ar3d.zblk - 2) *
          (val512.shape3.2.1 + 2 * ar3d.yblk - 2) *
          (val512.shape3.2.2 + 2 * ar3d.xblk - 2)) :=
  ⟨c4_amended.1 ar1d st0 (.slc 0 1) 0 ⟨.get, (0, 0, 0), (1, 1, 1)⟩ (by decide),
   c4_amended.2 ar3d st0 1 1 1 val512 ⟨.get, (0, 0, 0), (576, 576, 576)⟩
     (by decide) (by decide) (by decide) (by decide)⟩

/-- Claim C10: on a 1D or 2D array, a write whose (well-formed) region volume
exceeds MAX_REQ_SIZE never succeeds: whatever the fuel, the call either
diverges in the halving loop or raises - the chunked path slices the caller's
1- or 2-dimensional value buffer with three subscripts (an IndexError) before
any store request for the first tile is issued. -/
theorem c10_lowdim_oversized_write (ar : DicedArray) (st : St) (idx : Idx)
    (val : PyBuf) (fuel : Nat)
    (harity : ar.numdims = idx.dimsreq)
    (hlow : ar.numdims = 1 ∨ ar.numdims = 2)
    (hval : val.dims.length = ar.numdims)
    (hz : idx.slices.1.1 ≤ idx.slices.1.2)
    (hy : idx.slices.2.1.1 ≤ idx.slices.2.1.2)
    (hx : idx.slices.2.2.1 ≤ idx.slices.2.2.2)
    (hvol : (MAX_REQ_SIZE : Int) <
      (idx.slices.1.2 - idx.slices.1.1) * (idx.slices.2.1.2 - idx.slices.2.1.1) *
        (idx.slices.2.2.2 - idx.slices.2.2.1)) :
    (setitem ar st idx val fuel).isOk = false := by
  have hM : (0 : Int) ≤ (MAX_REQ_SIZE : Nat) := Int.natCast_nonneg _
  have hzpos : 0 < idx.slices.1.2 - idx.slices.1.1 := by
    by_contra hcon
    have h0 : idx.slices.1.2 - idx.slices.1.1 = 0 := by omega
    rw [h0, zero_mul, zero_mul] at hvol
    omega
  have hypos : 0 < idx.slices.2.1.2 - idx.slices.2.1.1 := by
    by_contra hcon
    have h0 : idx.slices.2.1.2 - idx.slices.2.1.1 = 0 := by omega
    rw [h0, mul_zero, zero_mul] at hvol
    omega
  have hxpos : 0 < idx.slices.2.2.2 - idx.slices.2.2.1 := by
    by_contra hcon
    have h0 : idx.slices.2.2.2 - idx.slices.2.2.1 = 0 := by omega
    rw [h0, mul_zero] at hvol
    omega
  unfold setitem
  rw [if_neg (fun hcon => hcon harity)]
  cases hlocked : ar.locked with
  | true => rfl
  | false =>
    simp only [Bool.false_eq_true, if_false]
    rw [if_pos hvol]
    cases hci : computeIncrs fuel ((idx.slices.1.2 - idx.slices.1.1).toNat,
        (idx.slices.2.1.2 - idx.slices.2.1.1).toNat,
        (idx.slices.2.2.2 - idx.slices.2.2.1).toNat) with
    | none => rfl
    | some incrs =>
      obtain ⟨hi1, hi2, hi3⟩ := computeIncrs_pos fuel _ incrs hci
        (by simp; omega) (by simp; omega) (by simp; omega)
      have hne := @tiles3_ne_nil (idx.slices.1.2 - idx.slices.1.1).toNat
        (idx.slices.2.1.2 - idx.slices.2.1.1).toNat
        (idx.slices.2.2.2 - idx.slices.2.2.1).toNat
        incrs.1 incrs.2.1 incrs.2.2
        (by omega) (by omega) (by omega) hi1 hi2 hi3
      have hwt : writeTiles ar st val idx.slices.1.1 idx.slices.2.1.1
          idx.slices.2.2.1 (idx.slices.1.2 - idx.slices.1.1).toNat
          (idx.slices.2.1.2 - idx.slices.2.1.1).toNat
          (idx.slices.2.2.2 - idx.slices.2.2.1).toNat
          incrs.1 incrs.2.1 incrs.2.2 = .serr .pyIndexError st :=
        writeFold_err ar val idx.slices.1.1 idx.slices.2.1.1 idx.slices.2.2.1
          (idx.slices.1.2 - idx.slices.1.1).toNat
          (idx.slices.2.1.2 - idx.slices.2.1.1).toNat
          (idx.slices.2.2.2 - idx.slices.2.2.1).toNat
          incrs.1 incrs.2.1 incrs.2.2 _ (by omega) hne st
      show (match writeTiles ar st val idx.slices.1.1 idx.slices.2.1.1
          idx.slices.2.2.1 (idx.slices.1.2 - idx.slices.1.1).toNat
          (idx.slices.2.1.2 - idx.slices.2.1.1).toNat
          (idx.slices.2.2.2 - idx.slices.2.2.1).toNat
          incrs.1 incrs.2.1 incrs.2.2 with
        | .serr e s => WRes.werr e s
        | .sok s => WRes.wok s).isOk = false
      rw [hwt]
      rfl

/-- Witness for C10: an oversized 16384 x 16384 write on a 2D array. -/
theorem c10_lowdim_oversized_write_witness :
    (ar2d.numdims = (Idx.tup2 (.slc 0 16384) (.slc 0 16384)).dimsreq ∧
     (ar2d.numdims = 1 ∨ ar2d.numdims = 2) ∧
     val2d.dims.length = ar2d.numdims) ∧
    (setitem ar2d st0 (.tup2 (.slc 0 16384) (.slc 0 16384)) val2d 64).isOk
      = false :=
  ⟨⟨rfl, Or.inr rfl, rfl⟩,
   c10_lowdim_oversized_write ar2d st0 (.tup2 (.slc 0 16384) (.slc 0 16384))
     val2d 64 rfl (Or.inr rfl) rfl (by decide) (by decide) (by decide)
     (by decide)⟩

/-- Claim C1 evaluated at its failing input: a write of MAX_REQ_SIZE + 1
elements to a 1D array raises IndexError (the chunked path slices the 1D
value buffer with three subscripts) before any store request is issued, so
the write/read round-trip cannot hold for this region. -/
theorem c1_code_bug_eval :
    setitem ar1d st0 (.slc 0 134217729) val1d 64 = .werr .pyIndexError st0 := by
  rfl

/-- Witness for C2: a 1 x 1 x (MAX_REQ_SIZE + 1) region read with increments
(1, 1, 67108865), evaluated at the first element. -/
theorem c2_tiling_transparency_witness :
    (0 < 1 ∧ 0 < 67108865 ∧ MAX_REQ_SIZE < 1 * 1 * 134217729 ∧
     0 < 1 ∧ 0 < 1 ∧ 0 < 134217729) ∧
    (readTiles ar1d st0 0 0 0 1 1 134217729 1 1 67108865).1 0 0 0 =
      (getchunkBuf ar1d st0 0 0 0 1 1 134217729).val [0, 0, 0] :=
  ⟨⟨by decide, by decide, by decide, by decide, by decide, by decide⟩,
   c2_tiling_transparency ar1d st0 0 0 0 1 1 134217729 1 1 67108865
     (by decide) (by decide) (by decide) (by decide) 0 0 0
     (by decide) (by decide) (by decide)⟩

end Diced
